import Mathlib

set_option linter.unusedVariables false
set_option maxRecDepth 8192

/-!
Verification development for the request-orchestration layer of the CA
screenshot-solver repository (`src/electron/ProcessingHelper.ts`, the
divergent `ProcessingHelper.ts` revisions stored as `src/unnamed/part_000`
and `src/unnamed/part_001`, and `ConfigHelper.ts` stored as
`src/unnamed/part_002`).

The TypeScript code is shallowly embedded as executable Lean functions.
Strings are modelled as Lean `String`/`List Char`; the JavaScript regular
expressions used by the code are modelled by direct scanning functions that
reproduce the regex engine's leftmost-match and greedy/lazy semantics on the
ASCII inputs the code handles.  `JSON.parse` is modelled by a fuel-based
strict JSON parser.  Network calls are modelled by oracles: a value of type
`ApiOutcome` stands for what the remote Gemini endpoint would do for one
request.
-/

/-! ## JavaScript string primitives -/

/-- Whitespace for the JavaScript `\s` character class and `String.trim`,
restricted to the ASCII range handled by this code base
(space, tab, line feed, vertical tab, form feed, carriage return). -/
def isJsWs (c : Char) : Bool :=
  c = ' ' || c = '\t' || c = '\n' || c = '\x0b' || c = '\x0c' || c = '\r'

/-- Model of JavaScript `String.prototype.trim` on a character list. -/
def jsTrimList (l : List Char) : List Char :=
  ((l.dropWhile isJsWs).reverse.dropWhile isJsWs).reverse

/-- Model of JavaScript `String.prototype.trim`. -/
def jsTrim (s : String) : String :=
  String.mk (jsTrimList s.toList)

/-- Word characters for the JavaScript `\w` character class
(ASCII letters, digits, underscore). -/
def isWordChar (c : Char) : Bool :=
  c.isAlpha || c.isDigit || c = '_'

/-- Decide whether `pat` is a prefix of `l` (plain character equality). -/
def listStartsWith : List Char → List Char → Bool
  | [], _ => true
  | _ :: _, [] => false
  | p :: ps, c :: cs => p = c && listStartsWith ps cs

/-- Decide whether `pat` occurs as a contiguous sublist of `l`
(model of JavaScript `String.prototype.includes`). -/
def listContainsSub (pat : List Char) : List Char → Bool
  | [] => listStartsWith pat []
  | c :: cs => listStartsWith pat (c :: cs) || listContainsSub pat cs

/-- Model of `String.prototype.includes`. -/
def jsIncludes (hay pat : String) : Bool :=
  listContainsSub pat.toList hay.toList

/-- ASCII-case-insensitive prefix test, for regexes carrying the `i` flag. -/
def listStartsWithCI : List Char → List Char → Bool
  | [], _ => true
  | _ :: _, [] => false
  | p :: ps, c :: cs => p.toLower = c.toLower && listStartsWithCI ps cs

/-! ## The fence stripper

`ProcessingHelper.ts` line 419, `part_000` line 446 and `part_001` line 446
all clean the extraction response with

  `response.replace(/```json|```/g, '').trim()`

The replacement is global: scanning left to right, at each position the
engine first tries the alternative ` ```json `, then ` ``` `; a match is
deleted and scanning resumes after it. -/

/-- Model of `replace(/```json|```/g, '')`: delete every occurrence of a
fence marker, preferring the 7-character marker over the 3-character one. -/
def stripMarkers : List Char → List Char
  | '`' :: '`' :: '`' :: 'j' :: 's' :: 'o' :: 'n' :: rest => stripMarkers rest
  | '`' :: '`' :: '`' :: rest => stripMarkers rest
  | c :: rest => c :: stripMarkers rest
  | [] => []

/-- Does the list contain three consecutive backticks? -/
def hasFence : List Char → Bool
  | '`' :: '`' :: '`' :: _ => true
  | _ :: rest => hasFence rest
  | [] => false

/-- The full cleaning step applied to the extraction response:
`response.replace(/```json|```/g, '').trim()`. -/
def stripFences (s : String) : String :=
  String.mk (jsTrimList (stripMarkers s.toList))

/-! ## A model of `JSON.parse`

`JSON.parse` accepts exactly the strict JSON grammar (RFC 8259) with
leading/trailing JSON whitespace.  Numbers are kept as their source lexeme
(the code never does arithmetic on them); strings are decoded including
escape sequences. -/

/-- JSON values as produced by the modelled `JSON.parse`. -/
inductive Json where
  | null : Json
  | bool : Bool → Json
  | num : String → Json
  | str : String → Json
  | arr : List Json → Json
  | obj : List (String × Json) → Json

/-- Whitespace accepted by the JSON grammar itself. -/
def isJsonWs (c : Char) : Bool :=
  c = ' ' || c = '\t' || c = '\n' || c = '\r'

/-- Hexadecimal digit value, if any (code points: digits 48-57,
lowercase a-f 97-102, uppercase A-F 65-70). -/
def hexVal (c : Char) : Option Nat :=
  let n := c.toNat
  if 48 ≤ n && n ≤ 57 then some (n - 48)
  else if 97 ≤ n && n ≤ 102 then some (n - 87)
  else if 65 ≤ n && n ≤ 70 then some (n - 55)
  else none

/-- Parse the body of a JSON string after the opening quote; returns the
decoded characters and the remainder after the closing quote. -/
def parseStrBody : List Char → Option (List Char × List Char)
  | [] => none
  | '"' :: rest => some ([], rest)
  | '\\' :: esc =>
    match esc with
    | '"' :: r => (parseStrBody r).map (fun p => ('"' :: p.1, p.2))
    | '\\' :: r => (parseStrBody r).map (fun p => ('\\' :: p.1, p.2))
    | '/' :: r => (parseStrBody r).map (fun p => ('/' :: p.1, p.2))
    | 'b' :: r => (parseStrBody r).map (fun p => ('\x08' :: p.1, p.2))
    | 'f' :: r => (parseStrBody r).map (fun p => ('\x0c' :: p.1, p.2))
    | 'n' :: r => (parseStrBody r).map (fun p => ('\n' :: p.1, p.2))
    | 'r' :: r => (parseStrBody r).map (fun p => ('\r' :: p.1, p.2))
    | 't' :: r => (parseStrBody r).map (fun p => ('\t' :: p.1, p.2))
    | 'u' :: a :: b :: c :: d :: r =>
      match hexVal a, hexVal b, hexVal c, hexVal d with
      | some ha, some hb, some hc, some hd =>
        (parseStrBody r).map
          (fun p => (Char.ofNat (((ha * 16 + hb) * 16 + hc) * 16 + hd) :: p.1, p.2))
      | _, _, _, _ => none
    | _ => none
  | c :: rest =>
    if c.toNat < 0x20 then none
    else (parseStrBody rest).map (fun p => (c :: p.1, p.2))

/-- Parse a JSON number lexeme (`-? (0 | [1-9][0-9]*) frac? exp?`);
returns the lexeme characters and the remainder. -/
def parseNumLex (l : List Char) : Option (List Char × List Char) :=
  let isDigit : Char → Bool := fun c => '0' ≤ c && c ≤ '9'
  let sign : List Char × List Char :=
    match l with
    | '-' :: r => (['-'], r)
    | _ => ([], l)
  let intPart : Option (List Char × List Char) :=
    match sign.2 with
    | '0' :: r => some (['0'], r)
    | c :: r =>
      if '1' ≤ c && c ≤ '9' then
        let ds := r.takeWhile isDigit
        some (c :: ds, r.drop ds.length)
      else none
    | [] => none
  match intPart with
  | none => none
  | some (ip, afterInt) =>
    let frac : Option (List Char × List Char) :=
      match afterInt with
      | '.' :: r =>
        let ds := r.takeWhile isDigit
        if ds = [] then none else some ('.' :: ds, r.drop ds.length)
      | _ => some ([], afterInt)
    match frac with
    | none => none
    | some (fp, afterFrac) =>
      let expo : Option (List Char × List Char) :=
        match afterFrac with
        | e :: r =>
          if e = 'e' || e = 'E' then
            let signedTail : List Char × List Char :=
              match r with
              | s :: r' => if s = '+' || s = '-' then ([s], r') else ([], r)
              | [] => ([], r)
            let ds := signedTail.2.takeWhile isDigit
            if ds = [] then none
            else some (e :: (signedTail.1 ++ ds), signedTail.2.drop ds.length)
          else some ([], afterFrac)
        | [] => some ([], afterFrac)
      match expo with
      | none => none
      | some (ep, rest) => some (sign.1 ++ ip ++ fp ++ ep, rest)

mutual

/-- Parse one JSON value (fuel-based recursive descent). -/
def parseVal : Nat → List Char → Option (Json × List Char)
  | 0, _ => none
  | _ + 1, [] => none
  | fuel + 1, l@(c :: rest) =>
    if listStartsWith ['t', 'r', 'u', 'e'] l then some (.bool true, l.drop 4)
    else if listStartsWith ['f', 'a', 'l', 's', 'e'] l then some (.bool false, l.drop 5)
    else if listStartsWith ['n', 'u', 'l', 'l'] l then some (.null, l.drop 4)
    else if c = '"' then
      (parseStrBody rest).map (fun p => (.str (String.mk p.1), p.2))
    else if c = '{' then
      let r := rest.dropWhile isJsonWs
      match r with
      | '}' :: r' => some (.obj [], r')
      | _ =>
        match parseMembers fuel r with
        | some (fields, '}' :: r') => some (.obj fields, r')
        | _ => none
    else if c = '[' then
      let r := rest.dropWhile isJsonWs
      match r with
      | ']' :: r' => some (.arr [], r')
      | _ =>
        match parseElems fuel r with
        | some (elems, ']' :: r') => some (.arr elems, r')
        | _ => none
    else
      (parseNumLex l).map (fun p => (.num (String.mk p.1), p.2))

/-- Parse the members of an object, positioned at the first key (whitespace
already skipped); stops before the closing brace. -/
def parseMembers : Nat → List Char → Option (List (String × Json) × List Char)
  | 0, _ => none
  | fuel + 1, l =>
    match l with
    | '"' :: rest =>
      match parseStrBody rest with
      | none => none
      | some (key, afterKey) =>
        match afterKey.dropWhile isJsonWs with
        | ':' :: afterColon =>
          match parseVal fuel (afterColon.dropWhile isJsonWs) with
          | none => none
          | some (v, afterVal) =>
            match afterVal.dropWhile isJsonWs with
            | ',' :: afterComma =>
              match parseMembers fuel (afterComma.dropWhile isJsonWs) with
              | some (fields, rest') => some ((String.mk key, v) :: fields, rest')
              | none => none
            | rest' => some ([(String.mk key, v)], rest')
        | _ => none
    | _ => none

/-- Parse the elements of an array, positioned at the first element
(whitespace already skipped); stops before the closing bracket. -/
def parseElems : Nat → List Char → Option (List Json × List Char)
  | 0, _ => none
  | fuel + 1, l =>
    match parseVal fuel l with
    | none => none
    | some (v, afterVal) =>
      match afterVal.dropWhile isJsonWs with
      | ',' :: afterComma =>
        match parseElems fuel (afterComma.dropWhile isJsonWs) with
        | some (elems, rest') => some (v :: elems, rest')
        | none => none
      | rest' => some ([v], rest')

end

/-- Model of `JSON.parse`: `some` value on the strict JSON grammar with
surrounding whitespace, `none` where `JSON.parse` throws. -/
def jsonParse (s : String) : Option Json :=
  let l := s.toList.dropWhile isJsonWs
  match parseVal (l.length + 1) l with
  | some (v, rest) => if rest.dropWhile isJsonWs = [] then some v else none
  | none => none

/-- Own-property lookup on a parsed object: the last duplicate key wins,
matching JavaScript object construction order. -/
def jsonLookup (fields : List (String × Json)) (key : String) : Option Json :=
  match fields with
  | [] => none
  | (k, v) :: rest =>
    match jsonLookup rest key with
    | some v' => some v'
    | none => if k = key then some v else none

/-- Property access `x.key` on an arbitrary JSON runtime value:
`undefined` (here `none`) on non-objects. -/
def jsGet (j : Json) (key : String) : Option Json :=
  match j with
  | .obj fields => jsonLookup fields key
  | _ => none

/-- Is the mantissa of a JSON number lexeme zero
(all mantissa digits `0`)? -/
def numLexIsZero (lex : String) : Bool :=
  let mantissa := lex.toList.takeWhile (fun c => c ≠ 'e' && c ≠ 'E')
  mantissa.all (fun c => !('1' ≤ c && c ≤ '9'))

/-- JavaScript truthiness of a JSON runtime value. -/
def jsonTruthy (j : Json) : Bool :=
  match j with
  | .null => false
  | .bool b => b
  | .num lex => !numLexIsZero lex
  | .str s => s ≠ ""
  | .arr _ => true
  | .obj _ => true

/-- JavaScript truthiness of a possibly-absent (`undefined`) value. -/
def jsTruthyOpt (j : Option Json) : Bool :=
  match j with
  | none => false
  | some v => jsonTruthy v

/-- JavaScript string conversion of a scalar JSON runtime value. -/
def jsToStringScalar : Json → String
  | .null => "null"
  | .bool b => if b then "true" else "false"
  | .num lex => lex
  | .str s => s
  | .arr _ => ""
  | .obj _ => "[object Object]"

/-- JavaScript string conversion of a JSON runtime value, as used by
template-literal interpolation (`arr.toString` joins the converted elements
with commas, rendering `null` elements empty).  The model converts array
elements one level deep, which covers every shape the orchestrator
manipulates (the only array it interpolates is the flat `options` list from
the extraction JSON). -/
def jsToString : Json → String
  | .arr elems => String.intercalate ","
      (elems.map fun e => match e with | .null => "" | e' => jsToStringScalar e')
  | j => jsToStringScalar j

/-- String conversion of a possibly-absent value:
`undefined` interpolates as `"undefined"`. -/
def jsToStringOpt (j : Option Json) : String :=
  match j with
  | none => "undefined"
  | some v => jsToString v

/-- Model of `x || fallbackString` inside a template literal: the converted
value when truthy, the fallback otherwise. -/
def jsOrString (j : Option Json) (fallback : String) : String :=
  if jsTruthyOpt j then jsToStringOpt j else fallback

/-! ## Model of the solution-response regexes

`/```(?:\w+)?\s*([\s\S]*?)```/` (first fenced code block, group 1):
the engine takes the leftmost opening ` ``` `, greedily consumes an optional
word-character run and a whitespace run, then the lazy group ends at the
first subsequent ` ``` `; if no closing fence follows, the engine retries
from the next start position. -/

/-- Find the first closing fence in the list; returns the characters before
it and the remainder after it. -/
def splitAtClose : List Char → Option (List Char × List Char)
  | '`' :: '`' :: '`' :: r => some ([], r)
  | c :: r => (splitAtClose r).map (fun p => (c :: p.1, p.2))
  | [] => none

/-- Group 1 of the first match of `/```(?:\w+)?\s*([\s\S]*?)```/`,
or `none` when the regex does not match (`codeMatch` is `null`). -/
def fencedGroup : List Char → Option (List Char)
  | [] => none
  | c :: rest =>
    if c = '`' && listStartsWith ['`', '`'] rest then
      let afterOpen := rest.drop 2
      let afterWs := (afterOpen.dropWhile isWordChar).dropWhile isJsWs
      match splitAtClose afterWs with
      | some (body, _) => some body
      | none => fencedGroup rest
    else fencedGroup rest

/-- Bullet markers of `[•\-\*]`. -/
def isBulletChar (c : Char) : Bool :=
  c = '•' || c = '-' || c = '*'

/-- Model of the regex tail `\s*([^\n]+)` positioned right after a bullet
marker: the greedy whitespace run is consumed, then the capture takes the
following non-newline characters; at end of input the engine backtracks the
whitespace run to its last non-newline character.  Returns the capture and
the remainder after the match. -/
def bulletTail (l : List Char) : Option (String × List Char) :=
  let run := l.takeWhile isJsWs
  let rest := l.drop run.length
  match rest with
  | _ :: _ =>
    let cap := rest.takeWhile (fun c => c ≠ '\n')
    some (String.mk cap, rest.drop cap.length)
  | [] =>
    let revR := run.reverse
    let trailing := revR.takeWhile (fun c => c = '\n')
    match revR.drop trailing.length with
    | [] => none
    | c :: _ => some (String.mk [c], trailing.reverse)

/-- Attempt `\s*[•\-\*]\s*([^\n]+)` at a position just after an anchor
(`^` or a consumed `\n`). -/
def bulletAt (l : List Char) : Option (String × List Char) :=
  match l.drop (l.takeWhile isJsWs).length with
  | c :: r => if isBulletChar c then bulletTail r else none
  | [] => none

/-- Scan for the remaining matches of `/(?:^|\n)\s*[•\-\*]\s*([^\n]+)/g`
after the start-of-string anchor has been tried. -/
def bulletScanTail : Nat → List Char → List String
  | 0, _ => []
  | _ + 1, [] => []
  | fuel + 1, c :: rest =>
    if c = '\n' then
      match bulletAt rest with
      | some (cap, after) => cap :: bulletScanTail fuel after
      | none => bulletScanTail fuel rest
    else bulletScanTail fuel rest

/-- All group-1 captures of `/(?:^|\n)\s*[•\-\*]\s*([^\n]+)/g` over the
string, in order (model of `matchAll`; `match(...g)` differs only by also
reporting the matched bullet prefix, which every caller strips again). -/
def bulletCaptures (s : String) : List String :=
  let l := s.toList
  match bulletAt l with
  | some (cap, after) => cap :: bulletScanTail (l.length + 1) after
  | none => bulletScanTail (l.length + 1) l

/-- First keyword of the priority list matching case-insensitively at this
position; returns its length. -/
def kwAt (kws : List (List Char)) (l : List Char) : Option Nat :=
  match kws with
  | [] => none
  | k :: rest => if listStartsWithCI k l then some k.length else kwAt rest l

/-- Terminator keywords of the insights regex lookahead
`(?=\n\s*(?:answer|final|solution|code|```|\*\*))`. -/
def termKws : List (List Char) :=
  [['a', 'n', 's', 'w', 'e', 'r'], ['f', 'i', 'n', 'a', 'l'],
   ['s', 'o', 'l', 'u', 't', 'i', 'o', 'n'], ['c', 'o', 'd', 'e'],
   ['`', '`', '`'], ['*', '*']]

/-- Does the lookahead fire just after a newline: whitespace-skip then one
of the terminator keywords? -/
def isTermAhead (l : List Char) : Bool :=
  (kwAt termKws (l.dropWhile isJsWs)).isSome

/-- The lazy group `([\s\S]*?)` of the insights regex: collect characters
until end of input or until a newline at which the terminator lookahead
fires. -/
def collectUntilTerm : List Char → List Char
  | [] => []
  | c :: rest =>
    if c = '\n' && isTermAhead rest then []
    else c :: collectUntilTerm rest

/-- Group 1 of the first match of an insights regex of the shape
`/(?:kw1|kw2|...)[:\s]*\n?([\s\S]*?)(?:$|(?=\n\s*(?:answer|...)))/i`:
find the leftmost keyword occurrence, skip the colon/whitespace run, then
collect lazily up to the terminator. -/
def insightsGroup (kws : List (List Char)) : List Char → Option (List Char)
  | [] => none
  | l@(_ :: rest) =>
    match kwAt kws l with
    | some klen =>
      some (collectUntilTerm ((l.drop klen).dropWhile (fun c => c = ':' || isJsWs c)))
    | none => insightsGroup kws rest

/-- Try `/kind[:\s]*O\([^)]+\)/i` at this position; returns the matched
characters. -/
def complexityAt (kw : List Char) (l : List Char) : Option (List Char) :=
  if listStartsWithCI kw l then
    let kwChars := l.take kw.length
    let rest := l.drop kw.length
    let sepRun := rest.takeWhile (fun c => c = ':' || isJsWs c)
    match rest.drop sepRun.length with
    | o :: '(' :: r2 =>
      if o = 'O' || o = 'o' then
        let body := r2.takeWhile (fun c => c ≠ ')')
        if body ≠ [] && r2.drop body.length ≠ [] then
          some (kwChars ++ sepRun ++ o :: '(' :: body ++ [')'])
        else none
      else none
    | _ => none
  else none

/-- First match of `/kind[:\s]*O\([^)]+\)/i` in the string. -/
def complexityScan (kw : List Char) : List Char → Option (List Char)
  | [] => none
  | l@(_ :: rest) =>
    match complexityAt kw l with
    | some m => some m
    | none => complexityScan kw rest

/-- Model of `.replace(/.*O/, 'O')`: on the first line containing an
(uppercase) `O`, everything up to its last `O` is replaced by `O`;
without any `O` the string is unchanged. -/
def replOAux : Nat → List Char → List Char
  | 0, l => l
  | fuel + 1, l =>
    let line := l.takeWhile (fun c => c ≠ '\n')
    let rest := l.drop line.length
    if line.contains 'O' then
      'O' :: (line.reverse.takeWhile (fun c => c ≠ 'O')).reverse ++ rest
    else
      match rest with
      | [] => l
      | _ :: r => line ++ '\n' :: replOAux fuel r

/-! ## The optimized revision `src/unnamed/part_001` -/

namespace Part1

/-- Structured solution data built by `parseSolutionResponse`
(`part_001` lines 453-466). -/
structure SolutionData where
  code : String
  thoughts : List String
  time_complexity : String
  space_complexity : String
deriving DecidableEq

/-- `part_001` lines 444-451, `parseJsonResponse`: strip the fence markers,
trim, `JSON.parse`; a parse failure raises
"Failed to parse problem information". -/
def parseJsonResponse (response : String) : Except String Json :=
  match jsonParse (stripFences response) with
  | some v => .ok v
  | none => .error "Failed to parse problem information"

/-- `part_001` lines 491-496, the fallback-thoughts table
(`fallbacks[type] || fallbacks['coding']`). -/
def fallbackThoughts (t : String) : List String :=
  if t = "MCQ" then ["Applied systematic analysis", "Verified with given constraints"]
  else if t = "debug" then ["Analyzed error patterns", "Provided specific fixes"]
  else ["Chose optimal algorithm", "Handled edge cases efficiently"]

/-- `part_001` lines 479-498, `extractThoughts`: all bullet captures,
trimmed, keeping those longer than 10 characters, at most 4; the fallback
table only when the bullet regex found no match at all. -/
def extractThoughts (response : String) (type_ : String) : List String :=
  let captures := bulletCaptures response
  if captures.length > 0 then
    ((captures.map jsTrim).filter (fun t => t.length > 10)).take 4
  else fallbackThoughts type_

/-- `part_001` lines 500-504, `extractComplexity`: first match of
`/kind[:\s]*O\([^)]+\)/i`, post-processed by `.replace(/.*O/, 'O')`;
default `O(n)`. -/
def extractComplexity (response : String) (kind : String) : String :=
  match complexityScan kind.toList response.toList with
  | some m => String.mk (replOAux (m.length + 1) m)
  | none => "O(n)"

/-- `part_001` lines 453-466, `parseSolutionResponse`: first fenced block
trimmed as the code (the trimmed whole response when no fence matches),
plus thoughts and the two complexity fields.  Total by construction. -/
def parseSolutionResponse (response : String) (problemType : String) : SolutionData :=
  { code :=
      match fencedGroup response.toList with
      | some g => jsTrim (String.mk g)
      | none => jsTrim response,
    thoughts := extractThoughts response problemType,
    time_complexity := extractComplexity response "time",
    space_complexity := extractComplexity response "space" }

/-- `part_001` lines 202-208, `selectModel`: both branches of the
conditional return the same identifier. -/
def selectModel (problemType : Option String) (complexity : Option String) : String :=
  if complexity = some "simple" || problemType = some "MCQ" then
    "gemini-2.0-flash-exp"
  else
    "gemini-2.0-flash-exp"

end Part1

/-! ## The Gemini request wrapper

`ProcessingHelper.ts` lines 158-214 and `part_000` lines 132-187 share the
same `makeGeminiRequest`.  One request is modelled by an `ApiOutcome`
describing what the remote endpoint does.  Crucially, the checks performed
on a successful HTTP response — "no candidates" and
`finishReason === 'MAX_TOKENS'` — `throw` *inside the function's own `try`
block*, so their errors are caught by the function's own `catch (error)`;
there `axios.isCancel(error)` is false and `error.response` is `undefined`,
so both are re-thrown as the generic message
"Failed to process with Gemini API. Please try again.".  In particular the
`Error("TRUNCATED_RESPONSE")` thrown for `MAX_TOKENS` never leaves this
function with that message. -/

/-- What the remote endpoint does for one request. -/
inductive ApiOutcome where
  | canceled : ApiOutcome
  | httpError : Option Nat → ApiOutcome
  | noCandidates : ApiOutcome
  | reply : String → String → ApiOutcome

/-- Errors escaping `makeGeminiRequest`: an axios cancellation is re-thrown
as-is; everything else is an `Error` with a message. -/
inductive GemErr where
  | canceled : GemErr
  | err : String → GemErr
deriving DecidableEq

/-- The messages of the `catch` block's HTTP status classification
(`ProcessingHelper.ts` lines 204-212). -/
def statusMessage : Option Nat → String
  | some 429 => "Gemini API rate limit exceeded. Please wait and try again."
  | some 400 => "Invalid request to Gemini API. Please check your screenshots."
  | some 403 => "Invalid Gemini API key or insufficient permissions."
  | _ => "Failed to process with Gemini API. Please try again."

/-- Model of `makeGeminiRequest` (`ProcessingHelper.ts` lines 158-214,
identical in `part_000`): the missing-key check throws before the `try`
block; the truncation and empty-response errors are swallowed by the
function's own `catch` and re-thrown with the generic message. -/
def makeGeminiRequest (hasKey : Bool) (o : ApiOutcome) : Except GemErr String :=
  if !hasKey then .error (.err "Gemini API key not configured")
  else
    match o with
    | .canceled => .error .canceled
    | .httpError status => .error (.err (statusMessage status))
    | .noCandidates =>
      .error (.err "Failed to process with Gemini API. Please try again.")
    | .reply finishReason text =>
      if finishReason = "MAX_TOKENS" then
        .error (.err "Failed to process with Gemini API. Please try again.")
      else .ok text

/-- Strict-equality test `info.key === "val"` on a parsed JSON value. -/
def strFieldIs (info : Json) (key val : String) : Bool :=
  match jsGet info key with
  | some (.str s) => s = val
  | _ => false

/-! ## `src/electron/ProcessingHelper.ts` -/

namespace PH

/-- `ProcessingHelper.ts` lines 154-156, `getOptimalModel`: the parameter is
ignored and a constant identifier returned. -/
def getOptimalModel (problemType : Option String) : String :=
  "gemini-2.5-flash"

/-- The `{ code, thoughts }` payload built by `generateSolutionsHelper`. -/
structure SolutionPayload where
  code : String
  thoughts : List String
deriving DecidableEq

/-- Result of a helper: `{success: true, data}` or `{success: false, error}`. -/
inductive HelperOutcome where
  | success : SolutionPayload → HelperOutcome
  | failure : String → HelperOutcome
deriving DecidableEq

/-- Keyword alternation of the insights regex of `ProcessingHelper.ts`
line 550: `(?:insights?|key points?|approach)`, in engine priority order. -/
def insightsKws : List (List Char) :=
  [['i', 'n', 's', 'i', 'g', 'h', 't', 's'], ['i', 'n', 's', 'i', 'g', 'h', 't'],
   ['k', 'e', 'y', ' ', 'p', 'o', 'i', 'n', 't', 's'],
   ['k', 'e', 'y', ' ', 'p', 'o', 'i', 'n', 't'],
   ['a', 'p', 'p', 'r', 'o', 'a', 'c', 'h']]

/-- `ProcessingHelper.ts` lines 550-566: thoughts from the insights section
(empty when the insights regex does not match or captures an empty group,
mirroring the falsy test `insightsMatch && insightsMatch[1]`). -/
def tsInsightThoughts (responseContent : String) : List String :=
  match insightsGroup insightsKws responseContent.toList with
  | some g =>
    if g ≠ [] then
      let captures := bulletCaptures (String.mk g)
      if captures.length > 0 then
        ((captures.map jsTrim).filter (fun t => t.length > 10)).take 4
      else
        ((((String.mk g).splitOn "\n").map jsTrim).filter
          (fun line => line.length > 10 && !(jsIncludes line "```"))).take 4
    else []
  | none => []

/-- The MCQ solution prompt of `ProcessingHelper.ts` lines 505-514. -/
def mcqPrompt (info : Json) : String :=
  "Solve: " ++ jsToStringOpt (jsGet info "problem_statement") ++ "\n" ++
  "Options: " ++ jsOrString (jsGet info "options") "" ++ "\n\n" ++
  "METHOD:\n" ++
  "1. Identify problem type & extract values\n" ++
  "2. Apply correct formula step-by-step\n" ++
  "3. Verify result matches option\n" ++
  "4. Final answer: **ANSWER: [LETTER]**\n\n" ++
  "Show work clearly. Accuracy critical."

/-- The coding solution prompt of `ProcessingHelper.ts` lines 517-533. -/
def codingPrompt (info : Json) (language : String) : String :=
  "Code solution in " ++ language ++ ":\n\n" ++
  "PROBLEM: " ++ jsToStringOpt (jsGet info "problem_statement") ++ "\n" ++
  "CONSTRAINTS: " ++ jsOrString (jsGet info "constraints") "Standard constraints" ++
  "\n\n" ++
  "APPROACH:\n" ++
  "1. Choose optimal algorithm/data structure\n" ++
  "2. Handle edge cases & constraints\n" ++
  "3. Implement efficient solution\n" ++
  "4. Verify correctness\n\n" ++
  "Return:\n" ++
  "```" ++ language ++ "\n" ++
  "[Complete working code]\n" ++
  "```\n\n" ++
  "KEY INSIGHTS: [3-4 bullet points explaining approach]"

/-- Result of `generateSolutionsHelper`, with the number of solution-phase
requests actually issued and the prompt of the issued request. -/
structure GenResult where
  outcome : HelperOutcome
  requests : Nat
  prompt : Option String
deriving DecidableEq

/-- `ProcessingHelper.ts` lines 482-591, `generateSolutionsHelper`: one
solution request, no retry of any kind; the response is scraped into
`{ code, thoughts }` (code fallback is the *untrimmed* whole response);
cancellation and every error surface as `{success: false, error}`. -/
def generateSolutionsHelper (hasKey : Bool) (problemInfo : Option Json)
    (language : String) (o : ApiOutcome) : GenResult :=
  match problemInfo with
  | none => { outcome := .failure "No problem info available", requests := 0, prompt := none }
  | some info =>
    let promptText :=
      if strFieldIs info "problem_type" "MCQ" then mcqPrompt info
      else codingPrompt info language
    if !hasKey then
      { outcome := .failure "Gemini API key not configured", requests := 0, prompt := none }
    else
      match makeGeminiRequest true o with
      | .error .canceled =>
        { outcome := .failure "Processing was canceled by the user.",
          requests := 1, prompt := some promptText }
      | .error (.err m) =>
        { outcome := .failure m, requests := 1, prompt := some promptText }
      | .ok responseContent =>
        let code :=
          match fencedGroup responseContent.toList with
          | some g => jsTrim (String.mk g)
          | none => responseContent
        let scraped := tsInsightThoughts responseContent
        let thoughts :=
          if scraped.length = 0 then
            if strFieldIs info "problem_type" "MCQ" then
              ["Systematic analysis with step verification"]
            else
              ["Optimal algorithm with edge case handling"]
          else scraped
        { outcome := .success { code := code, thoughts := thoughts },
          requests := 1, prompt := some promptText }

/-- Result of one run of `processScreenshotsHelper`, with request counters
for both phases. -/
structure FlowResult where
  success : Bool
  error : Option String
  data : Option SolutionPayload
  extractionRequests : Nat
  solutionRequests : Nat
deriving DecidableEq

/-- `ProcessingHelper.ts` lines 377-480, `processScreenshotsHelper`: one
extraction request; its response is cleaned with
`replace(/```json|```/g, '').trim()` and fed to `JSON.parse`; a parse
failure returns immediately with the parse-error message and the solution
phase is never entered; otherwise `generateSolutionsHelper` runs (when the
main window exists), and its failure is re-thrown and caught as the
cycle's failure.  The image payload does not influence any modelled
observable, so it is not a parameter. -/
def processScreenshotsHelper (hasKey hasWindow : Bool) (language : String)
    (extraction solution : ApiOutcome) : FlowResult :=
  if !hasKey then
    { success := false, error := some "Gemini API key not configured",
      data := none, extractionRequests := 0, solutionRequests := 0 }
  else
    match makeGeminiRequest true extraction with
    | .error .canceled =>
      { success := false, error := some "Processing was canceled by the user.",
        data := none, extractionRequests := 1, solutionRequests := 0 }
    | .error (.err m) =>
      { success := false, error := some m,
        data := none, extractionRequests := 1, solutionRequests := 0 }
    | .ok text =>
      match jsonParse (stripFences text) with
      | none =>
        { success := false,
          error := some "Failed to parse problem information. Please try again or use clearer screenshots.",
          data := none, extractionRequests := 1, solutionRequests := 0 }
      | some problemInfo =>
        if hasWindow then
          let gen := generateSolutionsHelper true (some problemInfo) language solution
          match gen.outcome with
          | .success d =>
            { success := true, error := none, data := some d,
              extractionRequests := 1, solutionRequests := gen.requests }
          | .failure e =>
            { success := false, error := some e, data := none,
              extractionRequests := 1, solutionRequests := gen.requests }
        else
          { success := false, error := some "Failed to process screenshots",
            data := none, extractionRequests := 1, solutionRequests := 0 }

/-- `ProcessingHelper.ts` lines 217-238, `loadScreenshots`: filter the paths
through `fs.existsSync`; throw "No valid screenshot files found" when none
remain; read each surviving path, *silently dropping* any whose read fails
(`catch` returns `null`, then `filter(Boolean)`).  Note there is no check
that the final list is non-empty. -/
def loadScreenshots (fsExists : String → Bool) (fsRead : String → Option String)
    (paths : List String) : Except String (List (String × String)) :=
  let validPaths := paths.filter fsExists
  if validPaths.isEmpty then .error "No valid screenshot files found"
  else .ok (validPaths.filterMap (fun p => (fsRead p).map (fun d => (p, d))))

/-- Outcome of the `view === "queue"` branch of `processScreenshots`. -/
structure QueueResult where
  event : String
  errorMsg : Option String
  networkCalls : Nat
  inputError : Bool
deriving DecidableEq

/-- `ProcessingHelper.ts` lines 240-318, the `view === "queue"` branch of
`processScreenshots`: missing window returns silently; missing key emits
`API_KEY_INVALID`; an empty queue emits `NO_SCREENSHOTS`; a
`loadScreenshots` throw is caught and emitted as `INITIAL_SOLUTION_ERROR`;
otherwise `processScreenshotsHelper` runs and its failure is routed to
`API_KEY_INVALID` when the message contains "API Key" or "Gemini", else to
`INITIAL_SOLUTION_ERROR`. -/
def processScreenshotsQueue (hasWindow hasKey : Bool)
    (fsExists : String → Bool) (fsRead : String → Option String)
    (queue : List String) (language : String)
    (extraction solution : ApiOutcome) : QueueResult :=
  if !hasWindow then
    { event := "RETURN", errorMsg := none, networkCalls := 0, inputError := false }
  else if !hasKey then
    { event := "API_KEY_INVALID", errorMsg := none, networkCalls := 0, inputError := false }
  else if queue.isEmpty then
    { event := "NO_SCREENSHOTS", errorMsg := none, networkCalls := 0, inputError := false }
  else
    match loadScreenshots fsExists fsRead queue with
    | .error e =>
      { event := "INITIAL_SOLUTION_ERROR", errorMsg := some e,
        networkCalls := 0, inputError := true }
    | .ok _shots =>
      let r := processScreenshotsHelper true true language extraction solution
      if r.success then
        { event := "SOLUTION_SUCCESS", errorMsg := none,
          networkCalls := r.extractionRequests + r.solutionRequests,
          inputError := false }
      else
        let msg := r.error.getD ""
        { event :=
            if jsIncludes msg "API Key" || jsIncludes msg "Gemini" then
              "API_KEY_INVALID"
            else "INITIAL_SOLUTION_ERROR",
          errorMsg := r.error,
          networkCalls := r.extractionRequests + r.solutionRequests,
          inputError := false }

end PH

/-! ## The retry-loop revision `src/unnamed/part_000`

This revision's `generateSolutionsHelper` (lines 487-686) wraps the
solution request in `for (let attempt = 0; attempt <= maxRetries; attempt++)`
with `maxRetries = 2`.  Two facts about the source shape matter:

* the `catch` branch retries only when
  `error.message === "TRUNCATED_RESPONSE" && attempt < maxRetries`, after
  assigning a shorter prompt to `promptText` — but the first statement of
  the next iteration's `try` body reassigns `promptText` to the full
  prompt, so the shorter prompt is a dead store;
* `makeGeminiRequest` (see above) rewraps its own
  `Error("TRUNCATED_RESPONSE")` into the generic message, so the retry
  condition can never hold in the first place. -/

namespace Part0

/-- Keyword alternation of the insights regex of `part_000` line 614:
`(?:critical insights?|key insights?|insights?|thoughts?|approach)`. -/
def insightsKws : List (List Char) :=
  ["critical insights".toList, "critical insight".toList,
   "key insights".toList, "key insight".toList,
   "insights".toList, "insight".toList,
   "thoughts".toList, "thought".toList,
   "approach".toList]

/-- The full MCQ prompt of `part_000` lines 515-548 (built at the top of
every loop iteration). -/
def mcqFullPrompt (info : Json) : String :=
  "You are an expert quantitative analyst. Solve this problem with maximum accuracy using systematic reasoning.\n\n" ++
  "PROBLEM: " ++ jsToStringOpt (jsGet info "problem_statement") ++ "\n" ++
  "OPTIONS: " ++ jsOrString (jsGet info "options") "" ++ "\n\n" ++
  "CRITICAL: Follow this EXACT methodology for 100% accuracy:\n\n" ++
  "STEP 1 - PROBLEM ANALYSIS:\n" ++
  "• Identify the exact problem type (probability, statistics, calculus, algebra, etc.)\n" ++
  "• Extract ALL given values and their units/constraints\n" ++
  "• Determine what is being asked (be very specific)\n" ++
  "• Note any potential traps or common misconceptions\n\n" ++
  "STEP 2 - SOLUTION STRATEGY:\n" ++
  "• Choose the most appropriate formula/method\n" ++
  "• Verify all assumptions are valid\n" ++
  "• Plan your calculation steps in logical order\n" ++
  "• Double-check for any edge cases or special conditions\n\n" ++
  "STEP 3 - DETAILED CALCULATION:\n" ++
  "• Show EVERY calculation step with intermediate results\n" ++
  "• Use proper mathematical notation\n" ++
  "• Verify calculations at each step\n" ++
  "• Cross-check your work with alternative methods if possible\n\n" ++
  "STEP 4 - ANSWER VERIFICATION:\n" ++
  "• Check if your answer makes intuitive sense\n" ++
  "• Verify units are correct\n" ++
  "• Ensure answer falls within expected range\n" ++
  "• Compare against options to confirm exact match\n\n" ++
  "STEP 5 - FINAL ANSWER:\n" ++
  "State your final answer as: **ANSWER: [OPTION LETTER]**\n\n" ++
  "Remember: Accuracy is paramount. Take time to verify each step. Show all work clearly."

/-- The full coding prompt of `part_000` lines 550-601. -/
def codingFullPrompt (info : Json) (language : String) : String :=
  "You are an expert competitive programmer. Solve this coding challenge with maximum correctness and efficiency.\n\n" ++
  "PROBLEM: " ++ jsToStringOpt (jsGet info "problem_statement") ++ "\n" ++
  "CONSTRAINTS: " ++ jsOrString (jsGet info "constraints") "Standard competitive programming constraints" ++ "\n" ++
  "INPUT: " ++ jsOrString (jsGet info "example_input") "See problem description" ++ "\n" ++
  "OUTPUT: " ++ jsOrString (jsGet info "example_output") "See problem description" ++ "\n" ++
  "SIGNATURE: " ++ jsOrString (jsGet info "function_signature") ("def solution(): # " ++ language) ++ "\n\n" ++
  "SYSTEMATIC APPROACH for PERFECT SOLUTION:\n\n" ++
  "STEP 1 - PROBLEM COMPREHENSION:\n" ++
  "• Identify the core algorithm/data structure needed\n" ++
  "• Understand input/output format precisely\n" ++
  "• Analyze time/space constraints and their implications\n" ++
  "• Spot edge cases and boundary conditions\n\n" ++
  "STEP 2 - ALGORITHM DESIGN:\n" ++
  "• Choose optimal algorithm (greedy, DP, graph, etc.)\n" ++
  "• Plan data structures for efficient access\n" ++
  "• Outline step-by-step solution logic\n" ++
  "• Consider alternative approaches and justify choice\n\n" ++
  "STEP 3 - IMPLEMENTATION STRATEGY:\n" ++
  "• Write clean, readable, and efficient code\n" ++
  "• Handle all edge cases explicitly\n" ++
  "• Use meaningful variable names\n" ++
  "• Add critical comments for complex logic\n\n" ++
  "STEP 4 - VERIFICATION:\n" ++
  "• Trace through examples manually\n" ++
  "• Test boundary conditions\n" ++
  "• Verify algorithm correctness\n" ++
  "• Ensure code handles all constraints\n\n" ++
  "Provide your solution as:\n" ++
  "```" ++ language ++ "\n" ++
  "[Your complete, production-ready code here]\n" ++
  "```\n\n" ++
  "CRITICAL INSIGHTS:\n" ++
  "• [List 3-4 key algorithmic insights that make this solution work]\n\n" ++
  "Focus on CORRECTNESS first, then efficiency. Your code must handle ALL test cases."

/-- The prompt built at the top of every iteration of the retry loop. -/
def fullPrompt (info : Json) (language : String) : String :=
  if strFieldIs info "problem_type" "MCQ" then mcqFullPrompt info
  else codingFullPrompt info language

/-- The shorter MCQ retry prompt assigned in the `catch` branch
(`part_000` lines 652-663) — a dead store in the source, embedded here to
compare it against the prompt actually sent. -/
def mcqRetryPrompt (info : Json) : String :=
  "Solve quantitatively with systematic approach:\n\n" ++
  "PROBLEM: " ++ jsToStringOpt (jsGet info "problem_statement") ++ "\n" ++
  "OPTIONS: " ++ jsToStringOpt (jsGet info "options") ++ "\n\n" ++
  "METHOD:\n" ++
  "1. Identify problem type and extract all values\n" ++
  "2. Apply correct formula with step-by-step calculation\n" ++
  "3. Verify result makes sense and matches an option\n" ++
  "4. State final answer as: **ANSWER: [OPTION]**\n\n" ++
  "Show detailed work. Accuracy is critical."

/-- The shorter coding retry prompt assigned in the `catch` branch
(`part_000` lines 664-680) — likewise a dead store in the source. -/
def codingRetryPrompt (info : Json) (language : String) : String :=
  "Code solution in " ++ language ++ ":\n\n" ++
  "PROBLEM: " ++ jsToStringOpt (jsGet info "problem_statement") ++ "\n" ++
  "CONSTRAINTS: " ++ jsToStringOpt (jsGet info "constraints") ++ "\n\n" ++
  "APPROACH:\n" ++
  "1. Choose optimal algorithm/data structure\n" ++
  "2. Handle all edge cases and constraints\n" ++
  "3. Implement clean, efficient code\n" ++
  "4. Verify correctness\n\n" ++
  "```" ++ language ++ "\n" ++
  "[Complete solution]\n" ++
  "```\n\n" ++
  "Key insights (3-4 points)."

/-- The shorter retry prompt chosen by the `catch` branch. -/
def retryPrompt (info : Json) (language : String) : String :=
  if strFieldIs info "problem_type" "MCQ" then mcqRetryPrompt info
  else codingRetryPrompt info language

/-- `part_000` lines 606-648: scrape a successful solution response into
`{ code, thoughts }` (code fallback untrimmed; insights pipeline with this
revision's keyword list; type-dependent fallback thoughts). -/
def scrapeResponse (info : Json) (responseContent : String) : PH.SolutionPayload :=
  let code :=
    match fencedGroup responseContent.toList with
    | some g => jsTrim (String.mk g)
    | none => responseContent
  let scraped : List String :=
    match insightsGroup insightsKws responseContent.toList with
    | some g =>
      if g ≠ [] then
        let captures := bulletCaptures (String.mk g)
        if captures.length > 0 then
          ((captures.map jsTrim).filter (fun t => t.length > 10)).take 4
        else
          ((((String.mk g).splitOn "\n").map jsTrim).filter
            (fun line => line.length > 10 && !(jsIncludes line "```"))).take 4
      else []
    | none => []
  let thoughts : List String :=
    if scraped.length = 0 then
      if strFieldIs info "problem_type" "MCQ" then
        ["Systematic quantitative analysis with step-by-step verification"]
      else
        ["Optimal algorithm design with comprehensive edge case handling"]
    else scraped
  { code := code, thoughts := thoughts }

/-- How the retry loop terminates: a scraped success, or a thrown error
that the outer `catch` will classify. -/
inductive LoopExit where
  | success : PH.SolutionPayload → LoopExit
  | thrown : GemErr → LoopExit
deriving DecidableEq

/-- The retry loop of `part_000` lines 513-684, with the prompt of each
*issued* request logged.  `promptText` is reassigned to the full prompt at
the top of every iteration, exactly as in the source; the retry condition
compares the caught message against `"TRUNCATED_RESPONSE"`; the fuel-0 case
is the statement after the loop.  The `attempt` index feeds the oracle and
the `attempt < maxRetries` test. -/
def solveLoop (hasKey : Bool) (info : Json) (language : String)
    (oracle : Nat → ApiOutcome) :
    Nat → Nat → List String → LoopExit × List String
  | 0, _, prompts =>
    (.thrown (.err "Failed to generate complete solution after retries"), prompts)
  | fuel + 1, attempt, prompts =>
    let promptText := fullPrompt info language
    if !hasKey then
      (.thrown (.err "Gemini API key not configured"), prompts)
    else
      match makeGeminiRequest true (oracle attempt) with
      | .ok responseContent =>
        (.success (scrapeResponse info responseContent), prompts ++ [promptText])
      | .error .canceled => (.thrown .canceled, prompts ++ [promptText])
      | .error (.err m) =>
        if m = "TRUNCATED_RESPONSE" && attempt < 2 then
          solveLoop hasKey info language oracle fuel (attempt + 1)
            (prompts ++ [promptText])
        else (.thrown (.err m), prompts ++ [promptText])

/-- `part_000` lines 487-705, `generateSolutionsHelper`: run the retry loop
(`maxRetries = 2`, so three iterations of fuel) and classify a thrown error
in the outer `catch` (axios cancellation becomes the cancel message). -/
def generateSolutionsHelper (hasKey : Bool) (problemInfo : Option Json)
    (language : String) (oracle : Nat → ApiOutcome) :
    PH.HelperOutcome × List String :=
  match problemInfo with
  | none => (.failure "No problem info available", [])
  | some info =>
    match solveLoop hasKey info language oracle 3 0 [] with
    | (.success d, prompts) => (.success d, prompts)
    | (.thrown .canceled, prompts) =>
      (.failure "Processing was canceled by the user.", prompts)
    | (.thrown (.err m), prompts) => (.failure m, prompts)

end Part0

/-! ## `ConfigHelper.ts` (`src/unnamed/part_002`) -/

namespace Config

/-- Runtime shape of the object `loadConfig` returns.  The file is parsed
with `JSON.parse` and spread over the defaults without further type
coercion, so every field holds an arbitrary JSON runtime value. -/
structure RtConfig where
  apiKey : Json
  apiProvider : Json
  extractionModel : Json
  solutionModel : Json
  debuggingModel : Json
  language : Json
  opacity : Json

/-- `part_002` lines 53-54: `allowedModels.includes(model)` (strict
equality against the two identifiers, hence false for non-strings). -/
def allowedModelVal (j : Json) : Bool :=
  match j with
  | .str s => s = "gemini-2.5-pro" || s = "gemini-2.5-flash"
  | _ => false

/-- `part_002` lines 52-59, `sanitizeModelSelection`. -/
def sanitizeModelSelection (j : Json) : Json :=
  if allowedModelVal j then j else .str "gemini-2.5-flash"

/-- `part_002` lines 19-27, the `defaultConfig` literal. -/
def defaultConfig : RtConfig :=
  { apiKey := .str "", apiProvider := .str "gemini",
    extractionModel := .str "gemini-2.5-flash",
    solutionModel := .str "gemini-2.5-flash",
    debuggingModel := .str "gemini-2.5-flash",
    language := .str "python", opacity := .num "1.0" }

/-- Field value after the spread `{...defaultConfig, ...config}`:
the stored value when the key is present, the default otherwise. -/
def fieldOr (fields : List (String × Json)) (key : String) (dflt : Json) : Json :=
  match jsonLookup fields key with
  | some v => v
  | none => dflt

/-- Value of a model field after `loadConfig`'s conditional sanitization
(`if (config.extractionModel) {...}`) and the spread: a *truthy* stored
value is sanitized, a falsy-but-present value is spread through unchanged,
an absent key falls back to the default `"gemini-2.5-flash"`. -/
def modelField (fields : List (String × Json)) (key : String) : Json :=
  match jsonLookup fields key with
  | some v => if jsonTruthy v then sanitizeModelSelection v else v
  | none => .str "gemini-2.5-flash"

/-- `part_002` lines 61-93, `loadConfig`, over the config file content
(`none` = file missing).  A `JSON.parse` throw is caught and yields the
default config.  A parsed non-object also yields the default: in strict
mode the property assignment `config.apiProvider = "gemini"` throws on a
primitive and is caught; an array spreads no named fields, so the defaults
survive. -/
def loadConfig (file : Option String) : RtConfig :=
  match file with
  | none => defaultConfig
  | some content =>
    match jsonParse content with
    | some (.obj fields) =>
      { apiKey := fieldOr fields "apiKey" (.str ""),
        apiProvider := .str "gemini",
        extractionModel := modelField fields "extractionModel",
        solutionModel := modelField fields "solutionModel",
        debuggingModel := modelField fields "debuggingModel",
        language := fieldOr fields "language" (.str "python"),
        opacity := fieldOr fields "opacity" (.num "1.0") }
    | some _ => defaultConfig
    | none => defaultConfig

end Config

/-! ## State-level models of `ProcessingHelper.ts` -/

/-- Is the main window present and not destroyed
(`mainWindow && !mainWindow.isDestroyed()`)? -/
def windowLive : Option Bool → Bool
  | some destroyed => !destroyed
  | none => false

namespace PH

/-- The mutable fields of the `ProcessingHelper` instance touched by
`cancelOngoingRequests`, plus the main-window handle
(`none` = no window, `some d` = window with `isDestroyed() = d`).
The two controller fields record whether a controller is stored. -/
structure HelperState where
  procController : Bool
  extraController : Bool
  problemInfo : Option Json
  hasDebugged : Bool
  languageCache : Option String
  creditsCache : Option Nat
  window : Option Bool

/-- Observable result of one `cancelOngoingRequests` call. -/
structure CancelResult where
  state : HelperState
  abortedProc : Bool
  abortedExtra : Bool
  wasCancelled : Bool
  emittedNoScreenshots : Bool

/-- `ProcessingHelper.ts` lines 679-705, `cancelOngoingRequests`: abort and
null whichever controllers are present, unconditionally clear the problem
info, the has-debugged flag and both caches, and emit `NO_SCREENSHOTS`
only when something was actually aborted *and* the main window is live. -/
def cancelOngoingRequests (s : HelperState) : CancelResult :=
  let abortedProc := s.procController
  let abortedExtra := s.extraController
  let wasCancelled := abortedProc || abortedExtra
  { state :=
      { s with procController := false, extraController := false,
               hasDebugged := false, problemInfo := none,
               languageCache := none, creditsCache := none },
    abortedProc := abortedProc,
    abortedExtra := abortedExtra,
    wasCancelled := wasCancelled,
    emittedNoScreenshots := wasCancelled && windowLive s.window }

end PH

/-! ## Cycle-token model for the at-most-one-cycle invariant

`processScreenshots` (queue view, `ProcessingHelper.ts` lines 268-270)
starts a cycle with `this.currentProcessingAbortController = new
AbortController()`: the field is *overwritten*; the controller of a cycle
whose request is still pending is never aborted by this step.  Aborting
happens only in `cancelOngoingRequests` (lines 682-686).  The model tracks
controller identities. -/

namespace Cycles

/-- Abstract state: fresh-id counter, the controller currently stored in
`currentProcessingAbortController`, the cycles whose awaited request is
still pending, and every controller id that was ever aborted. -/
structure State where
  nextId : Nat
  current : Option Nat
  pending : List Nat
  aborted : List Nat
deriving DecidableEq

/-- The idle helper. -/
def initState : State :=
  { nextId := 0, current := none, pending := [], aborted := [] }

/-- `ProcessingHelper.ts` lines 268-270: a new cycle allocates a fresh
controller and overwrites the field; nothing is aborted. -/
def startCycle (s : State) : State :=
  { nextId := s.nextId + 1, current := some s.nextId,
    pending := s.nextId :: s.pending, aborted := s.aborted }

/-- `ProcessingHelper.ts` lines 682-686 (the processing-controller half of
`cancelOngoingRequests`): abort and null the stored controller. -/
def cancelCurrent (s : State) : State :=
  match s.current with
  | some i => { s with current := none, aborted := i :: s.aborted }
  | none => s

/-- A cycle's request completes: it leaves the pending set, and the
`finally` block (lines 316-318) unconditionally nulls the field. -/
def finishCycle (s : State) (i : Nat) : State :=
  { s with pending := s.pending.erase i, current := none }

/-- Eventual outcome of a pending cycle. -/
inductive Outcome where
  | cancelled : Outcome
  | completed : Outcome
deriving DecidableEq

/-- The outcome cycle `i` reports: `Cancelled` exactly when its controller
was aborted (the axios call then rejects with a cancellation); otherwise it
completes normally and its success handler runs. -/
def outcomeOf (s : State) (i : Nat) : Outcome :=
  if i ∈ s.aborted then .cancelled else .completed

end Cycles

/-! ## Lemmas about the fence stripper -/

/-- A list starting with three backticks contains a fence. -/
theorem hasFence_of_startsWith : ∀ l : List Char,
    listStartsWith ['`', '`', '`'] l = true → hasFence l = true
  | [], h => by simp [listStartsWith] at h
  | [c], h => by simp [listStartsWith] at h
  | [c, d], h => by simp [listStartsWith] at h
  | c :: d :: e :: rest, h => by
    simp only [listStartsWith, Bool.and_eq_true, decide_eq_true_eq] at h
    obtain ⟨h1, h2, h3, -⟩ := h
    subst h1; subst h2; subst h3
    rfl

/-- The stripper keeps a head character that does not open a fence marker. -/
theorem stripMarkers_cons (c : Char) (l : List Char)
    (h : listStartsWith ['`', '`', '`'] (c :: l) = false) :
    stripMarkers (c :: l) = c :: stripMarkers l := by
  rw [stripMarkers.eq_def]
  split
  · rename_i x rest heq
    rw [List.cons.injEq] at heq
    obtain ⟨rfl, rfl⟩ := heq
    simp [listStartsWith] at h
  · rename_i x rest hno heq
    rw [List.cons.injEq] at heq
    obtain ⟨rfl, rfl⟩ := heq
    simp [listStartsWith] at h
  · rename_i x c' rest hno1 hno2 heq
    rw [List.cons.injEq] at heq
    obtain ⟨rfl, rfl⟩ := heq
    rfl
  · rename_i x heq
    exact absurd heq (List.cons_ne_nil c l)

/-- A fence-free tail of a fence-free list. -/
theorem hasFence_tail (c : Char) (l : List Char) (h : hasFence (c :: l) = false) :
    hasFence l = false := by
  rw [hasFence.eq_def] at h
  split at h
  · exact absurd h (by simp)
  · rename_i x c' rest hno heq
    rw [List.cons.injEq] at heq
    obtain ⟨rfl, rfl⟩ := heq
    exact h
  · rename_i x heq
    exact absurd heq (List.cons_ne_nil c l)

/-- A fence-free list has no fence marker at its head. -/
theorem not_startsWith_of_no_fence (l : List Char) (h : hasFence l = false) :
    listStartsWith ['`', '`', '`'] l = false := by
  cases hs : listStartsWith ['`', '`', '`'] l with
  | false => rfl
  | true => rw [hasFence_of_startsWith l hs] at h; exact absurd h (by simp)

/-- The stripper is the identity on fence-free lists. -/
theorem stripMarkers_of_no_fence (l : List Char) (h : hasFence l = false) :
    stripMarkers l = l := by
  induction l with
  | nil => rfl
  | cons c rest ih =>
    rw [stripMarkers_cons c rest (not_startsWith_of_no_fence _ h),
        ih (hasFence_tail c rest h)]

/-- Appending a closing fence to a fence-free list not ending in a backtick
strips exactly that fence. -/
theorem stripMarkers_append_fence : ∀ body : List Char,
    hasFence body = false → body.getLast? ≠ some '`' →
    stripMarkers (body ++ ['`', '`', '`']) = body := by
  intro body
  induction body with
  | nil => intro _ _; rfl
  | cons c rest ih =>
    intro h1 h2
    have hsw : listStartsWith ['`', '`', '`'] (c :: (rest ++ ['`', '`', '`'])) = false := by
      cases rest with
      | nil =>
        cases hs : listStartsWith ['`', '`', '`'] (c :: ([] ++ ['`', '`', '`'])) with
        | false => rfl
        | true =>
          simp only [List.nil_append, listStartsWith, Bool.and_eq_true,
            decide_eq_true_eq] at hs
          simp only [List.getLast?_singleton, ne_eq, Option.some.injEq] at h2
          exact absurd hs.1.symm h2
      | cons d rest2 =>
        cases rest2 with
        | nil =>
          cases hs : listStartsWith ['`', '`', '`'] (c :: ([d] ++ ['`', '`', '`'])) with
          | false => rfl
          | true =>
            simp only [List.cons_append, List.nil_append, listStartsWith,
              Bool.and_eq_true, decide_eq_true_eq] at hs
            rw [List.getLast?_cons_cons, List.getLast?_singleton] at h2
            simp only [ne_eq, Option.some.injEq] at h2
            exact absurd hs.2.1.symm h2
        | cons e rest3 =>
          cases hs : listStartsWith ['`', '`', '`'] (c :: (d :: e :: rest3 ++ ['`', '`', '`'])) with
          | false => rfl
          | true =>
            simp only [List.cons_append, listStartsWith, Bool.and_eq_true,
              decide_eq_true_eq] at hs
            obtain ⟨hc, hd, he, -⟩ := hs
            subst hc; subst hd; subst he
            simp [hasFence] at h1
    rw [List.cons_append, stripMarkers_cons _ _ hsw]
    have hrest2 : rest.getLast? ≠ some '`' := by
      cases rest with
      | nil => simp
      | cons d rest2 => rw [List.getLast?_cons_cons] at h2; exact h2
    rw [ih (hasFence_tail c rest h1) hrest2]

/-! ## Claim theorems -/

/-- C5 counterexample: the string `{"a":"```"}` is already valid JSON, yet
the cleaning step `replace(/```json|```/g, '').trim()` alters it (the
global replace deletes the backticks inside the JSON string value), so the
step is not the identity on already-clean JSON and does not strip exactly
one leading/trailing fence pair. -/
theorem c5_counterexample :
    (jsonParse "\x7b\"a\":\"```\"\x7d").isSome = true ∧
    stripFences "\x7b\"a\":\"```\"\x7d" ≠ "\x7b\"a\":\"```\"\x7d" := by
  refine ⟨rfl, ?_⟩
  decide

/-- C5 (amended): the cleaning step removes every occurrence of the fence
markers and trims.  It is the identity on valid JSON that contains no
triple-backtick and carries no surrounding whitespace, and on an input
wrapped in a single ` ```json `/` ``` ` pair whose body is fence-free and
does not end in a backtick it yields exactly the trimmed body. -/
theorem c5_amended :
    (∀ s : String, (jsonParse s).isSome = true → hasFence s.toList = false →
      jsTrim s = s → stripFences s = s) ∧
    (∀ body : String, hasFence body.toList = false →
      body.toList.getLast? ≠ some '`' →
      stripFences ("```json" ++ body ++ "```") = jsTrim body) := by
  constructor
  · intro s hvalid hnf htrim
    unfold stripFences
    rw [stripMarkers_of_no_fence s.toList hnf]
    exact htrim
  · intro body hnf hlast
    unfold stripFences
    have h1 : ("```json" ++ body ++ "```").toList
        = '`' :: '`' :: '`' :: 'j' :: 's' :: 'o' :: 'n' :: (body.toList ++ ['`', '`', '`']) := by
      have e1 : ("```json" ++ body ++ "```").toList
          = "```json".toList ++ (body.toList ++ "```".toList) := by
        show ("```json" ++ body ++ "```").data = "```json".data ++ (body.data ++ "```".data)
        rw [String.data_append, String.data_append, List.append_assoc]
      rw [e1]
      rfl
    rw [h1]
    have h2 : stripMarkers
        ('`' :: '`' :: '`' :: 'j' :: 's' :: 'o' :: 'n' :: (body.toList ++ ['`', '`', '`'])) =
        stripMarkers (body.toList ++ ['`', '`', '`']) := rfl
    rw [h2, stripMarkers_append_fence body.toList hnf hlast]
    rfl

/-- C5 witness: both amended parts applied at `{"a":1}`. -/
theorem c5_amended_witness :
    stripFences "\x7b\"a\":1\x7d" = "\x7b\"a\":1\x7d" ∧
    stripFences ("```json" ++ "\x7b\"a\":1\x7d" ++ "```") = jsTrim "\x7b\"a\":1\x7d" :=
  ⟨c5_amended.1 "\x7b\"a\":1\x7d" (by decide) (by decide) (by decide),
   c5_amended.2 "\x7b\"a\":1\x7d" (by decide) (by decide)⟩

/-- C6 counterexample: `parseJsonResponse` accepts `{"problem_statement":""}`
— stripped text parses as JSON but the problem-statement field is the empty
string, and no error is raised; the parser does not require the field to be
a non-empty string. -/
theorem c6_counterexample :
    Part1.parseJsonResponse "\x7b\"problem_statement\":\"\"\x7d" =
      .ok (.obj [("problem_statement", .str "")]) := rfl

/-- C6 (amended): the problem-info parser accepts an extraction response
exactly when the fence-stripped text parses as strict JSON; the
problem-statement field is not validated at all (it may be empty or
absent). -/
theorem c6_amended :
    ∀ s : String, (Part1.parseJsonResponse s).isOk = (jsonParse (stripFences s)).isSome := by
  intro s
  unfold Part1.parseJsonResponse
  cases jsonParse (stripFences s) <;> rfl

/-- Helper for C4: the thoughts list built by `extractThoughts` never has
more than 4 entries. -/
theorem extractThoughts_length_le (r t : String) :
    (Part1.extractThoughts r t).length ≤ 4 := by
  simp only [Part1.extractThoughts]
  split
  · exact List.length_take_le 4 _
  · by_cases h1 : t = "MCQ" <;> by_cases h2 : t = "debug" <;>
      simp [Part1.fallbackThoughts, h1, h2]

/-- C4: the solution-text parser is total by construction (a Lean function
on all input strings) and produces at most 4 thoughts; whenever the
code-fence regex finds no match (`codeMatch` is `null`), the code field is
the trimmed whole input. -/
theorem c4_solution_text :
    (∀ s t : String, (Part1.parseSolutionResponse s t).thoughts.length ≤ 4) ∧
    (∀ s t : String, fencedGroup s.toList = none →
      (Part1.parseSolutionResponse s t).code = jsTrim s) := by
  constructor
  · intro s t
    exact extractThoughts_length_le s t
  · intro s t h
    have h' : fencedGroup s.data = none := h
    simp [Part1.parseSolutionResponse, h']

/-- C4 witness: a fence-free input, its code field equal to the trimmed
input. -/
theorem c4_solution_text_witness :
    fencedGroup "  plain text answer  ".toList = none ∧
    (Part1.parseSolutionResponse "  plain text answer  " "MCQ").code =
      jsTrim "  plain text answer  " :=
  ⟨by decide, c4_solution_text.2 "  plain text answer  " "MCQ" (by decide)⟩

/-- C8 counterexample: at the claim's own distinguished inputs — a
non-coding problem ("MCQ") versus the default coding case, and a complex
versus a simple request — both model-selection functions return the very
same identifier, so the non-coding/high case does not yield a more capable
model distinct from the fast default (the general constancy is
`c8_amended`). -/
theorem c8_counterexample :
    PH.getOptimalModel (some "MCQ") = PH.getOptimalModel (some "coding") ∧
    PH.getOptimalModel (some "MCQ") = "gemini-2.5-flash" ∧
    Part1.selectModel (some "MCQ") (some "complex") =
      Part1.selectModel (some "coding") (some "simple") ∧
    Part1.selectModel (some "MCQ") (some "complex") = "gemini-2.0-flash-exp" :=
  ⟨rfl, rfl, rfl, rfl⟩

/-- C8 (amended): model selection is total and deterministic but constant:
`getOptimalModel` always returns `gemini-2.5-flash` and `part_001`'s
`selectModel` always returns `gemini-2.0-flash-exp` (its two branches are
identical). -/
theorem c8_amended :
    (∀ t : Option String, PH.getOptimalModel t = "gemini-2.5-flash") ∧
    (∀ t c : Option String, Part1.selectModel t c = "gemini-2.0-flash-exp") :=
  ⟨fun _ => rfl, fun t c => by simp [Part1.selectModel]⟩

/-- C3: when the extraction call returns text that does not parse as JSON
after fence stripping, `processScreenshotsHelper` fails immediately with
the parse-error message, no solution-phase request is issued, and the
extraction is not retried (exactly one extraction request). -/
theorem c3_extraction_parse_error :
    ∀ (hasWindow : Bool) (language finishReason text : String) (solution : ApiOutcome),
      finishReason ≠ "MAX_TOKENS" →
      jsonParse (stripFences text) = none →
      PH.processScreenshotsHelper true hasWindow language (.reply finishReason text) solution =
        { success := false,
          error := some "Failed to parse problem information. Please try again or use clearer screenshots.",
          data := none, extractionRequests := 1, solutionRequests := 0 } := by
  intro hasWindow language fr text solution hfr hparse
  simp [PH.processScreenshotsHelper, makeGeminiRequest, hfr, hparse]

/-- C3 witness: a plain-prose extraction response fails with the parse
error and zero solution requests. -/
theorem c3_extraction_parse_error_witness :
    jsonParse (stripFences "The screenshot shows a coding problem.") = none ∧
    PH.processScreenshotsHelper true true "python"
        (.reply "STOP" "The screenshot shows a coding problem.") (.reply "STOP" "x") =
      { success := false,
        error := some "Failed to parse problem information. Please try again or use clearer screenshots.",
        data := none, extractionRequests := 1, solutionRequests := 0 } :=
  ⟨rfl,
   c3_extraction_parse_error true "python" "STOP"
     "The screenshot shows a coding problem." (.reply "STOP" "x") (by decide) rfl⟩

/-- C7 counterexample: a single queued path that exists on disk but whose
read fails — zero readable files — yet the cycle does not fail with the
input error: `loadScreenshots` silently drops the unreadable file, the
helper runs, and a network call (the extraction request) is issued. -/
theorem c7_counterexample :
    PH.processScreenshotsQueue true true (fun _ => true) (fun _ => none)
        ["screenshot1.png"] "python" (.reply "STOP" "not json") (.reply "STOP" "x") =
      { event := "INITIAL_SOLUTION_ERROR",
        errorMsg := some "Failed to parse problem information. Please try again or use clearer screenshots.",
        networkCalls := 1, inputError := false } := rfl

/-- C7 (amended): the input error "No valid screenshot files found" (with
zero network calls) occurs exactly when no queued path *exists on disk*;
when some paths exist, files whose read fails are silently skipped
(`filterMap`) and the cycle proceeds — even if every read fails, so the
extraction request is still issued with zero images. -/
theorem c7_amended :
    (∀ (fsExists : String → Bool) (fsRead : String → Option String)
        (queue : List String) (lang : String) (e s : ApiOutcome),
      queue ≠ [] → queue.filter fsExists = [] →
      PH.processScreenshotsQueue true true fsExists fsRead queue lang e s =
        { event := "INITIAL_SOLUTION_ERROR",
          errorMsg := some "No valid screenshot files found",
          networkCalls := 0, inputError := true }) ∧
    (∀ (fsExists : String → Bool) (fsRead : String → Option String)
        (paths : List String),
      paths.filter fsExists ≠ [] →
      PH.loadScreenshots fsExists fsRead paths =
        .ok ((paths.filter fsExists).filterMap
          (fun p => (fsRead p).map (fun d => (p, d))))) := by
  constructor
  · intro fsExists fsRead queue lang e s hne hzero
    have hq : queue.isEmpty = false := by
      cases queue with
      | nil => exact absurd rfl hne
      | cons a l => rfl
    simp [PH.processScreenshotsQueue, hq, PH.loadScreenshots, hzero]
  · intro fsExists fsRead paths hne
    have hq : (paths.filter fsExists).isEmpty = false := by
      cases hh : paths.filter fsExists with
      | nil => exact absurd hh hne
      | cons a l => rfl
    simp [PH.loadScreenshots, hq]

/-- C7 witness: both amended parts at a concrete filesystem. -/
theorem c7_amended_witness :
    PH.processScreenshotsQueue true true (fun _ => false) (fun _ => none)
        ["a.png"] "python" (.reply "STOP" "x") (.reply "STOP" "x") =
      { event := "INITIAL_SOLUTION_ERROR",
        errorMsg := some "No valid screenshot files found",
        networkCalls := 0, inputError := true } ∧
    PH.loadScreenshots (fun _ => true) (fun p => if p = "a.png" then some "imgdata" else none)
        ["a.png", "b.png"] = .ok [("a.png", "imgdata")] := by
  constructor
  · exact c7_amended.1 (fun _ => false) (fun _ => none) ["a.png"] "python"
      (.reply "STOP" "x") (.reply "STOP" "x") (by decide) (by decide)
  · have h := c7_amended.2 (fun _ => true)
      (fun p => if p = "a.png" then some "imgdata" else none) ["a.png", "b.png"] (by decide)
    rw [h]
    rfl

/-- Every status classification of the request wrapper's catch block
differs from the internal truncation marker. -/
theorem statusMessage_ne_truncation (st : Option Nat) :
    statusMessage st ≠ "TRUNCATED_RESPONSE" := by
  unfold statusMessage
  split <;> decide

/-- `makeGeminiRequest` can never surface an error whose message is
`TRUNCATED_RESPONSE`: the truncation error thrown inside its `try` block is
caught by its own `catch` and replaced with the generic message. -/
theorem makeGeminiRequest_ne_truncation (o : ApiOutcome) :
    makeGeminiRequest true o ≠ .error (.err "TRUNCATED_RESPONSE") := by
  cases o with
  | canceled => simp [makeGeminiRequest]
  | httpError st =>
    simp only [makeGeminiRequest, Bool.not_true, Bool.false_eq_true, if_false, ne_eq,
      Except.error.injEq, GemErr.err.injEq]
    exact statusMessage_ne_truncation st
  | noCandidates =>
    simp only [makeGeminiRequest, Bool.not_true, Bool.false_eq_true, if_false, ne_eq,
      Except.error.injEq, GemErr.err.injEq]
    decide
  | reply fr text =>
    by_cases hfr : fr = "MAX_TOKENS"
    · simp only [makeGeminiRequest, Bool.not_true, Bool.false_eq_true, if_false,
        if_pos hfr, ne_eq, Except.error.injEq, GemErr.err.injEq]
      decide
    · simp [makeGeminiRequest, hfr]

/-- One round of `part_000`'s retry loop always terminates it with exactly
one more request issued: the retry branch requires the caught message to be
`TRUNCATED_RESPONSE`, which `makeGeminiRequest` never produces. -/
theorem solveLoop_single (info : Json) (language : String) (oracle : Nat → ApiOutcome)
    (fuel attempt : Nat) (prompts : List String) :
    (Part0.solveLoop true info language oracle (fuel + 1) attempt prompts).2 =
      prompts ++ [Part0.fullPrompt info language] := by
  rw [Part0.solveLoop]
  cases h : makeGeminiRequest true (oracle attempt) with
  | ok r => simp [h]
  | error e =>
    cases e with
    | canceled => simp [h]
    | err m =>
      have hm : (m = "TRUNCATED_RESPONSE") = False := by
        simp only [eq_iff_iff, iff_false]
        intro hmm
        exact makeGeminiRequest_ne_truncation (oracle attempt) (hmm ▸ h)
      simp [h, hm]

/-- The spec's truncation scenario: a concrete coding problem whose first
solution attempt is truncated (`finishReason = MAX_TOKENS`) and whose
second attempt would complete normally. -/
def truncScenarioInfo : Json :=
  .obj [("problem_statement", .str "Add two numbers"), ("problem_type", .str "coding")]

/-- Oracle for the truncation scenario. -/
def truncScenarioOracle : Nat → ApiOutcome :=
  fun attempt =>
    if attempt = 0 then .reply "MAX_TOKENS" "partial "
    else .reply "STOP" "```python\nprint(a + b)\n```"

/-- C2: the truncation-retry mechanism of `part_000` is dead code.  For
every problem and every oracle, `generateSolutionsHelper` issues exactly
one solution request (the retry branch matches on the message
`TRUNCATED_RESPONSE`, which `makeGeminiRequest` rewraps into a generic
message before it can escape).  On the spec's scenario — truncated first
attempt, normal second — the helper fails immediately with the generic
error instead of retrying, and the only prompt ever sent is the full
prompt; the shorter retry variant (a dead store in the source) is strictly
shorter but never used. -/
theorem c2_truncation_retry_dead :
    (∀ (info : Json) (language : String) (oracle : Nat → ApiOutcome),
      (Part0.generateSolutionsHelper true (some info) language oracle).2 =
        [Part0.fullPrompt info language]) ∧
    Part0.generateSolutionsHelper true (some truncScenarioInfo) "python" truncScenarioOracle =
      (.failure "Failed to process with Gemini API. Please try again.",
       [Part0.codingFullPrompt truncScenarioInfo "python"]) ∧
    (Part0.retryPrompt truncScenarioInfo "python").length <
      (Part0.fullPrompt truncScenarioInfo "python").length := by
  refine ⟨?_, ?_, ?_⟩
  · intro info language oracle
    have hsingle : (Part0.solveLoop true info language oracle 3 0 []).2 =
        [] ++ [Part0.fullPrompt info language] :=
      solveLoop_single info language oracle 2 0 []
    simp only [List.nil_append] at hsingle
    unfold Part0.generateSolutionsHelper
    dsimp only
    cases hres : Part0.solveLoop true info language oracle 3 0 [] with
    | mk exitv prompts =>
      rw [hres] at hsingle
      cases exitv with
      | success d => simpa using hsingle
      | thrown g =>
        cases g with
        | canceled => simpa using hsingle
        | err m => simpa using hsingle
  · rfl
  · decide

/-- Helper for C9: a model field that survives `loadConfig` truthy is
always in the allowed set, because truthy stored values are sanitized and
absent values default to `gemini-2.5-flash`. -/
theorem modelField_allowed (fields : List (String × Json)) (key : String) :
    jsonTruthy (Config.modelField fields key) = true →
    Config.allowedModelVal (Config.modelField fields key) = true := by
  unfold Config.modelField
  cases h : jsonLookup fields key with
  | none => intro _; rfl
  | some v =>
    dsimp only
    by_cases ht : jsonTruthy v = true
    · rw [if_pos ht]
      intro _
      unfold Config.sanitizeModelSelection
      by_cases ha : Config.allowedModelVal v = true
      · rw [if_pos ha]; exact ha
      · rw [if_neg ha]; rfl
    · rw [if_neg ht]
      intro hcon
      exact absurd hcon ht

/-- C9 counterexample: a config file storing the empty string for
`extractionModel` — a falsy value — skips `sanitizeModelSelection`
(`if (config.extractionModel)`) and is spread through, so `loadConfig`
returns a config whose extraction model is outside the allowed set. -/
theorem c9_counterexample :
    (Config.loadConfig (some "\x7b\"extractionModel\":\"\"\x7d")).extractionModel = .str "" ∧
    Config.allowedModelVal (.str "") = false :=
  ⟨rfl, rfl⟩

/-- C9 (amended): `loadConfig` is total (every input yields a config, the
default on a missing or unparseable file) and always returns
`apiProvider = "gemini"`; every model field it returns that is *truthy* is
in the allowed set `{gemini-2.5-pro, gemini-2.5-flash}` — but a falsy
stored value (such as the empty string) is passed through unsanitized. -/
theorem c9_amended : ∀ file : Option String,
    (Config.loadConfig file).apiProvider = .str "gemini" ∧
    (jsonTruthy (Config.loadConfig file).extractionModel = true →
      Config.allowedModelVal (Config.loadConfig file).extractionModel = true) ∧
    (jsonTruthy (Config.loadConfig file).solutionModel = true →
      Config.allowedModelVal (Config.loadConfig file).solutionModel = true) ∧
    (jsonTruthy (Config.loadConfig file).debuggingModel = true →
      Config.allowedModelVal (Config.loadConfig file).debuggingModel = true) := by
  intro file
  cases file with
  | none => exact ⟨rfl, fun _ => rfl, fun _ => rfl, fun _ => rfl⟩
  | some content =>
    cases h : jsonParse content with
    | none =>
      refine ⟨?_, ?_, ?_, ?_⟩ <;> simp only [Config.loadConfig, h] <;>
        first
        | rfl
        | exact fun _ => rfl
    | some v =>
      cases v with
      | obj fields =>
        refine ⟨?_, ?_, ?_, ?_⟩
        · simp [Config.loadConfig, h]
        · simp only [Config.loadConfig, h]
          exact modelField_allowed fields "extractionModel"
        · simp only [Config.loadConfig, h]
          exact modelField_allowed fields "solutionModel"
        · simp only [Config.loadConfig, h]
          exact modelField_allowed fields "debuggingModel"
      | null =>
        refine ⟨?_, ?_, ?_, ?_⟩ <;> simp only [Config.loadConfig, h] <;>
          first
          | rfl
          | exact fun _ => rfl
      | bool b =>
        refine ⟨?_, ?_, ?_, ?_⟩ <;> simp only [Config.loadConfig, h] <;>
          first
          | rfl
          | exact fun _ => rfl
      | num lex =>
        refine ⟨?_, ?_, ?_, ?_⟩ <;> simp only [Config.loadConfig, h] <;>
          first
          | rfl
          | exact fun _ => rfl
      | str s2 =>
        refine ⟨?_, ?_, ?_, ?_⟩ <;> simp only [Config.loadConfig, h] <;>
          first
          | rfl
          | exact fun _ => rfl
      | arr es =>
        refine ⟨?_, ?_, ?_, ?_⟩ <;> simp only [Config.loadConfig, h] <;>
          first
          | rfl
          | exact fun _ => rfl

/-- C9 witness: a stored out-of-set (truthy) model is sanitized to the
allowed set; the provider is forced to gemini. -/
theorem c9_amended_witness :
    jsonTruthy (Config.loadConfig (some "\x7b\"extractionModel\":\"gpt-4\"\x7d")).extractionModel = true ∧
    Config.allowedModelVal
      (Config.loadConfig (some "\x7b\"extractionModel\":\"gpt-4\"\x7d")).extractionModel = true ∧
    (Config.loadConfig (some "\x7b\"extractionModel\":\"gpt-4\"\x7d")).apiProvider = .str "gemini" :=
  ⟨rfl, (c9_amended (some "\x7b\"extractionModel\":\"gpt-4\"\x7d")).2.1 rfl,
   (c9_amended (some "\x7b\"extractionModel\":\"gpt-4\"\x7d")).1⟩

/-- C10 counterexample: with a processing controller in flight but no main
window, `cancelOngoingRequests` aborts the controller yet does not emit the
no-screenshots notification, refuting the claimed "if and only if". -/
theorem c10_counterexample :
    (PH.cancelOngoingRequests
      { procController := true, extraController := false, problemInfo := none,
        hasDebugged := true, languageCache := some "python", creditsCache := some 999,
        window := none }).wasCancelled = true ∧
    (PH.cancelOngoingRequests
      { procController := true, extraController := false, problemInfo := none,
        hasDebugged := true, languageCache := some "python", creditsCache := some 999,
        window := none }).emittedNoScreenshots = false :=
  ⟨rfl, rfl⟩

/-- C10 (amended): `cancelOngoingRequests` always clears the problem info,
the has-debugged flag, both caches and both controller slots, aborts
exactly the controllers that were present, and emits the no-screenshots
notification if and only if at least one controller was aborted *and* the
main window exists and is not destroyed. -/
theorem c10_amended : ∀ s : PH.HelperState,
    (PH.cancelOngoingRequests s).state.problemInfo = none ∧
    (PH.cancelOngoingRequests s).state.hasDebugged = false ∧
    (PH.cancelOngoingRequests s).state.languageCache = none ∧
    (PH.cancelOngoingRequests s).state.creditsCache = none ∧
    (PH.cancelOngoingRequests s).state.procController = false ∧
    (PH.cancelOngoingRequests s).state.extraController = false ∧
    (PH.cancelOngoingRequests s).abortedProc = s.procController ∧
    (PH.cancelOngoingRequests s).abortedExtra = s.extraController ∧
    (PH.cancelOngoingRequests s).wasCancelled = (s.procController || s.extraController) ∧
    (PH.cancelOngoingRequests s).emittedNoScreenshots =
      ((s.procController || s.extraController) && windowLive s.window) :=
  fun s => ⟨rfl, rfl, rfl, rfl, rfl, rfl, rfl, rfl, rfl, rfl⟩

/-- C1 counterexample: two back-to-back `processScreenshots` cycle starts
while the first cycle's request is still pending: the first cycle's
controller is never aborted and its eventual outcome is a completed
(stale) success, not `Cancelled`. -/
theorem c1_counterexample :
    0 ∈ (Cycles.startCycle (Cycles.startCycle Cycles.initState)).pending ∧
    0 ∉ (Cycles.startCycle (Cycles.startCycle Cycles.initState)).aborted ∧
    Cycles.outcomeOf (Cycles.startCycle (Cycles.startCycle Cycles.initState)) 0 =
      .completed := by
  decide

/-- C1 (amended): starting a new cycle never aborts anything — it only
replaces the stored controller — so a prior in-flight cycle can still
complete and deliver a stale success; a cycle's controller is aborted (and
its outcome becomes `Cancelled`) only by an explicit
`cancelOngoingRequests` call while it is the current one. -/
theorem c1_amended :
    (∀ s : Cycles.State, (Cycles.startCycle s).aborted = s.aborted) ∧
    (∀ (s : Cycles.State) (i : Nat), s.current = some i →
      (Cycles.cancelCurrent s).aborted = i :: s.aborted) := by
  constructor
  · intro s; rfl
  · intro s i h
    simp [Cycles.cancelCurrent, h]

/-- C1 witness: the amended facts at concrete states. -/
theorem c1_amended_witness :
    (Cycles.startCycle Cycles.initState).aborted = [] ∧
    (Cycles.cancelCurrent
      { nextId := 6, current := some 5, pending := [5], aborted := [] }).aborted = [5] :=
  ⟨c1_amended.1 Cycles.initState,
   c1_amended.2 { nextId := 6, current := some 5, pending := [5], aborted := [] } 5 rfl⟩

/-! ## Concrete validation of the embedding -/

example : jsonParse "\x7b\x7d" = some (.obj []) := rfl

example : jsonParse " \x7b\"a\": 1, \"b\": [true, null]\x7d " =
    some (.obj [("a", .num "1"), ("b", .arr [.bool true, .null])]) := rfl

example : jsonParse "hello" = none := rfl

example : jsonParse "\x7b\"a\":\"```\"\x7d" = some (.obj [("a", .str "```")]) := rfl

example : stripFences "\x7b\"a\":\"```\"\x7d" = "\x7b\"a\":\"\"\x7d" := by decide

example : stripFences "```json\n\x7b\"a\":1\x7d\n```" = "\x7b\"a\":1\x7d" := by decide

example : fencedGroup "before ```py\n x=1 ``` after".toList = some "x=1 ".toList := rfl

example : fencedGroup "no fence at all".toList = none := rfl

example : fencedGroup "`````".toList = none := rfl

example : (Part1.parseSolutionResponse "  plain answer  " "coding").code = "plain answer" := rfl

example : (Part1.parseSolutionResponse "x ```c\nint f;``` y" "coding").code = "int f;" := rfl

example : bulletCaptures "- first bullet point here\n- second one\nplain" =
    ["first bullet point here", "second one"] := rfl

example : Part1.extractComplexity "Time: O(n log n), Space: O(1)" "time" = "O(n log n)" := rfl

example : Part1.extractComplexity "nothing here" "space" = "O(n)" := rfl

example : Part1.parseJsonResponse "```json\n\x7b\"a\":true\x7d\n```" =
    .ok (.obj [("a", .bool true)]) := rfl

example :
    (PH.processScreenshotsHelper true true "python"
      (.reply "STOP" "this is not json") (.reply "STOP" "ok")).solutionRequests = 0 := rfl

example :
    (PH.processScreenshotsHelper true true "python"
      (.reply "STOP" "\x7b\"problem_statement\":\"Add\",\"problem_type\":\"coding\"\x7d")
      (.reply "STOP" "```py\nsum(a,b)\n```")).data =
    some { code := "sum(a,b)", thoughts := ["Optimal algorithm with edge case handling"] } := rfl

example :
    (Part0.generateSolutionsHelper true
      (some (.obj [("problem_statement", .str "Add two numbers"), ("problem_type", .str "coding")]))
      "python" (fun _ => .reply "MAX_TOKENS" "truncated...")).1 =
    .failure "Failed to process with Gemini API. Please try again." := rfl

example :
    (Part0.generateSolutionsHelper true
      (some (.obj [("problem_statement", .str "Add two numbers"), ("problem_type", .str "coding")]))
      "python" (fun _ => .reply "MAX_TOKENS" "truncated...")).2.length = 1 := rfl

example : (Config.loadConfig (some "\x7b\"extractionModel\":\"\"\x7d")).extractionModel = .str "" := rfl

example : (Config.loadConfig (some "\x7b\"extractionModel\":\"gpt-4\"\x7d")).extractionModel =
    .str "gemini-2.5-flash" := rfl

example : (Config.loadConfig (some "not json")).apiProvider = .str "gemini" := rfl

example : (Cycles.startCycle (Cycles.startCycle Cycles.initState)).aborted = [] := rfl
